import Mathlib

/-!
Verification of the core logic of a FITS-file viewer: the HDU classifier,
the grayscale normalization pipeline, the LaTeX escaping and table-export
routines, and the zoom-level state of the image view.

Floating-point samples are modelled as rationals together with the three
IEEE-754 non-finite values; machine casts are modelled by explicit
truncation; dialog and filesystem interactions are modelled as explicit
inputs and outputs of the export functions.
-/

/-- A floating-point sample in a FITS data array: either a finite value
(modelled exactly as a rational) or one of the IEEE-754 non-finite values. -/
inductive FitsVal where
  | nan
  | pinf
  | ninf
  | val (q : ℚ)
deriving DecidableEq, Repr

/-- A numpy n-dimensional array: its shape together with its row-major flat
contents. -/
structure NDArray where
  shape : List Nat
  flat : List FitsVal
deriving DecidableEq, Repr

/-- Number of dimensions of the array (numpy `ndim`, the length of the shape). -/
def NDArray.ndim (a : NDArray) : Nat := a.shape.length

/-- The `HDUType` enumeration of `gui.py`: NONE, EMPTY, IMAGE, TABLE.  The
enumeration has no Unsupported member. -/
inductive HDUType where
  | NONE
  | EMPTY
  | IMAGE
  | TABLE
deriving DecidableEq, Repr

/-- An HDU as inspected by `View.currentHDUType`: whether the hdu object is an
instance of `fits.TableHDU` or `fits.BinTableHDU`, and its `data` payload
(`None` or a numpy array). -/
structure HDU where
  isTable : Bool
  data : Option NDArray
deriving DecidableEq, Repr

/-- Embedding of `View.currentHDUType` (gui.py lines 146-157): EMPTY when
`hdu.data is None`; TABLE for table HDU instances; IMAGE when the payload has
`ndim == 2`; and EMPTY in every remaining case. -/
def currentHDUType (hdu : HDU) : HDUType :=
  match hdu.data with
  | none => .EMPTY
  | some d =>
    if hdu.isTable then .TABLE
    else if d.ndim = 2 then .IMAGE
    else .EMPTY

/-- Modelled from the spec: the four categories of the classifier contract,
including Unsupported, which the code's `HDUType` enumeration lacks. -/
inductive SpecHDUType where
  | Empty
  | Table
  | Image
  | Unsupported
deriving DecidableEq, Repr

/-- Modelled from the spec: "return Empty if it has no payload; Table if it is
a tabular structure; Image if its payload is a two-dimensional numeric array;
otherwise Unsupported". -/
def specClassify (hdu : HDU) : SpecHDUType :=
  match hdu.data with
  | none => .Empty
  | some d =>
    if hdu.isTable then .Table
    else if d.ndim = 2 then .Image
    else .Unsupported

/-- Correspondence between the code's `HDUType` values and the spec's
categories (NONE is the pre-load sentinel; it corresponds to no category). -/
def toSpecType : HDUType → Option SpecHDUType
  | .NONE => none
  | .EMPTY => some .Empty
  | .IMAGE => some .Image
  | .TABLE => some .Table

/-- Claim C1 fails on the code: a one-dimensional, non-tabular HDU with a
non-null payload is classified EMPTY by `currentHDUType`, while the claim
requires Unsupported for exactly this case. -/
theorem C1_counterexample :
    currentHDUType
      { isTable := false,
        data := some { shape := [3], flat := [.val 0, .val 1, .val 2] } }
      = HDUType.EMPTY
  ∧ specClassify
      { isTable := false,
        data := some { shape := [3], flat := [.val 0, .val 1, .val 2] } }
      = SpecHDUType.Unsupported
  ∧ toSpecType HDUType.EMPTY ≠ some SpecHDUType.Unsupported := by
  exact ⟨rfl, rfl, by decide⟩

/-- Claim C1 (amended): the classifier returns TABLE exactly for tabular HDUs
with a payload; IMAGE exactly for non-tabular two-dimensional payloads; EMPTY
exactly when the HDU has no payload or its payload is neither tabular nor
two-dimensional (not Unsupported, which the enumeration lacks); and never the
NONE sentinel. -/
theorem C1_amended (hdu : HDU) :
    (currentHDUType hdu = .TABLE ↔ hdu.data.isSome ∧ hdu.isTable = true)
  ∧ (currentHDUType hdu = .IMAGE ↔
      ∃ d, hdu.data = some d ∧ hdu.isTable = false ∧ d.ndim = 2)
  ∧ (currentHDUType hdu = .EMPTY ↔
      (hdu.data = none ∨
        ∃ d, hdu.data = some d ∧ hdu.isTable = false ∧ d.ndim ≠ 2))
  ∧ currentHDUType hdu ≠ .NONE := by
  obtain ⟨tb, data⟩ := hdu
  cases data with
  | none => cases tb <;> simp [currentHDUType]
  | some d => cases tb <;> by_cases h : d.ndim = 2 <;> simp [currentHDUType, h]

/-- The largest finite IEEE-754 double, (2 ^ 53 - 1) * 2 ^ 971, as an exact
rational: numpy's default replacement value for +Inf in `nan_to_num`. -/
def FLOAT64_MAX : ℚ := (2 ^ 53 - 1) * 2 ^ 971

/-- Embedding of `np.nan_to_num` with default arguments on a float64 sample, as
called by the normalizer: NaN becomes 0, +Inf becomes the largest finite
double, -Inf becomes its negation.  (The call site's comment claims all three
become 0; that is not what the call with default arguments does.) -/
def clean : FitsVal → ℚ
  | .nan => 0
  | .pinf => FLOAT64_MAX
  | .ninf => -FLOAT64_MAX
  | .val q => q

/-- Modelled from the spec: "Replace every NaN, Inf and negative Inf with 0." -/
def specClean : FitsVal → ℚ
  | .val q => q
  | _ => 0

/-- Minimum of a list of rationals (`np.min`); `none` on a zero-size array,
where numpy raises ValueError. -/
def listMin : List ℚ → Option ℚ
  | [] => none
  | x :: xs =>
    match listMin xs with
    | none => some x
    | some m => some (min x m)

/-- Maximum of a list of rationals (`np.max`); `none` on a zero-size array,
where numpy raises ValueError. -/
def listMax : List ℚ → Option ℚ
  | [] => none
  | x :: xs =>
    match listMax xs with
    | none => some x
    | some m => some (max x m)

/-- The normalization core of `fits_to_qpixmap` and `View._loadPixmap`, acting
on the flat contents of the cleaned array: compute min and max; if they
coincide, produce zeros of the same size (`np.zeros_like`); otherwise scale
each value by `255 * (v - min) / (max - min)` and cast to uint8.  The cast
`astype(np.uint8)` truncates toward zero, and every scaled value lies in
[0, 255], where truncation toward zero is the floor.  `none` models the
ValueError numpy raises when `np.min` meets a zero-size array. -/
def normalizeFlat (l : List ℚ) : Option (List ℕ) :=
  match listMin l, listMax l with
  | some mn, some mx =>
    if mx = mn then some (l.map fun _ => 0)
    else some (l.map fun v => (⌊255 * (v - mn) / (mx - mn)⌋).toNat)
  | _, _ => none

/-- Embedding of `utils.fits_to_qpixmap` after the file has been read (and of
the identical normalization in `View._loadPixmap`): reject an absent or non-2D
payload with ValueError; otherwise clean the array with `nan_to_num` and
normalize it to one byte per pixel, row-major with stride = width.  The result
carries (height, width, buffer). -/
def fits_to_qpixmap (data : Option NDArray) : Except String (ℕ × ℕ × List ℕ) :=
  match data with
  | none => .error "FITS file does not contain a 2D image."
  | some a =>
    match a.shape with
    | [h, w] =>
      match normalizeFlat (a.flat.map clean) with
      | some buf => .ok (h, w, buf)
      | none => .error "zero-size array to reduction operation minimum"
    | _ => .error "FITS file does not contain a 2D image."

/-- Modelled from the spec: "output[i] = round(255 * (value[i] - min) /
(max - min)), clamped to [0,255]". -/
def specNormPixel (mn mx v : ℚ) : ℤ :=
  max 0 (min 255 (round (255 * (v - mn) / (mx - mn))))

theorem listMin_ne_none {x : ℚ} {xs : List ℚ} : listMin (x :: xs) ≠ none := by
  unfold listMin
  cases listMin xs <;> simp

theorem listMax_ne_none {x : ℚ} {xs : List ℚ} : listMax (x :: xs) ≠ none := by
  unfold listMax
  cases listMax xs <;> simp

theorem listMin_of_ne_nil {l : List ℚ} (h : l ≠ []) : ∃ m, listMin l = some m := by
  cases l with
  | nil => cases h rfl
  | cons x xs =>
    cases hm : listMin (x :: xs) with
    | none => cases listMin_ne_none hm
    | some m => exact ⟨m, rfl⟩

theorem listMax_of_ne_nil {l : List ℚ} (h : l ≠ []) : ∃ m, listMax l = some m := by
  cases l with
  | nil => cases h rfl
  | cons x xs =>
    cases hm : listMax (x :: xs) with
    | none => cases listMax_ne_none hm
    | some m => exact ⟨m, rfl⟩

theorem listMin_eq_none {l : List ℚ} (h : listMin l = none) : l = [] := by
  cases l with
  | nil => rfl
  | cons x xs => cases listMin_ne_none h

theorem listMax_eq_none {l : List ℚ} (h : listMax l = none) : l = [] := by
  cases l with
  | nil => rfl
  | cons x xs => cases listMax_ne_none h

theorem listMin_le {l : List ℚ} {m : ℚ} (h : listMin l = some m) :
    ∀ x ∈ l, m ≤ x := by
  induction l generalizing m with
  | nil => simp [listMin] at h
  | cons a t ih =>
    intro x hx
    unfold listMin at h
    cases ht : listMin t with
    | none =>
      rw [ht] at h
      obtain rfl : a = m := by simpa using h
      rcases List.mem_cons.mp hx with rfl | hxt
      · exact le_refl x
      · rw [listMin_eq_none ht] at hxt
        simp at hxt
    | some m0 =>
      rw [ht] at h
      obtain rfl : min a m0 = m := by simpa using h
      rcases List.mem_cons.mp hx with rfl | hxt
      · exact min_le_left _ _
      · exact le_trans (min_le_right a m0) (ih ht x hxt)

theorem le_listMax {l : List ℚ} {m : ℚ} (h : listMax l = some m) :
    ∀ x ∈ l, x ≤ m := by
  induction l generalizing m with
  | nil => simp [listMax] at h
  | cons a t ih =>
    intro x hx
    unfold listMax at h
    cases ht : listMax t with
    | none =>
      rw [ht] at h
      obtain rfl : a = m := by simpa using h
      rcases List.mem_cons.mp hx with rfl | hxt
      · exact le_refl x
      · rw [listMax_eq_none ht] at hxt
        simp at hxt
    | some m0 =>
      rw [ht] at h
      obtain rfl : max a m0 = m := by simpa using h
      rcases List.mem_cons.mp hx with rfl | hxt
      · exact le_max_left _ _
      · exact le_trans (ih ht x hxt) (le_max_right a m0)

theorem listMin_const {l : List ℚ} {c : ℚ} (hne : l ≠ []) (h : ∀ x ∈ l, x = c) :
    listMin l = some c := by
  induction l with
  | nil => cases hne rfl
  | cons a t ih =>
    have ha : a = c := h a (by simp)
    cases t with
    | nil => simp [listMin, ha]
    | cons b t2 =>
      have ht : listMin (b :: t2) = some c :=
        ih (by simp) (fun x hx => h x (List.mem_cons_of_mem a hx))
      unfold listMin
      rw [ht, ha]
      simp

theorem listMax_const {l : List ℚ} {c : ℚ} (hne : l ≠ []) (h : ∀ x ∈ l, x = c) :
    listMax l = some c := by
  induction l with
  | nil => cases hne rfl
  | cons a t ih =>
    have ha : a = c := h a (by simp)
    cases t with
    | nil => simp [listMax, ha]
    | cons b t2 =>
      have ht : listMax (b :: t2) = some c :=
        ih (by simp) (fun x hx => h x (List.mem_cons_of_mem a hx))
      unfold listMax
      rw [ht, ha]
      simp

theorem scaled_le_255 {mn mx v : ℚ} (h2 : v ≤ mx) (hlt : mn < mx) :
    (⌊255 * (v - mn) / (mx - mn)⌋).toNat ≤ 255 := by
  have hd : 0 < mx - mn := sub_pos.mpr hlt
  have hle : 255 * (v - mn) / (mx - mn) ≤ 255 := by
    rw [div_le_iff₀ hd]
    nlinarith
  have hf : ⌊255 * (v - mn) / (mx - mn)⌋ ≤ 255 := by
    calc ⌊255 * (v - mn) / (mx - mn)⌋ ≤ ⌊(255 : ℚ)⌋ := Int.floor_mono hle
    _ = 255 := by norm_num
  omega

theorem map_zero_eq_replicate {α : Type} (t : List α) :
    t.map (fun _ => (0 : ℕ)) = List.replicate t.length 0 := by
  induction t with
  | nil => rfl
  | cons a t ih => simp [ih, List.replicate_succ]

theorem normalizeFlat_of_eq {l : List ℚ} {mn mx : ℚ} (hmn : listMin l = some mn)
    (hmx : listMax l = some mx) (heq : mx = mn) :
    normalizeFlat l = some (l.map fun _ => 0) := by
  unfold normalizeFlat
  rw [hmn, hmx]
  simp [heq]

theorem normalizeFlat_of_ne {l : List ℚ} {mn mx : ℚ} (hmn : listMin l = some mn)
    (hmx : listMax l = some mx) (hne : mx ≠ mn) :
    normalizeFlat l =
      some (l.map fun v => (⌊255 * (v - mn) / (mx - mn)⌋).toNat) := by
  unfold normalizeFlat
  rw [hmn, hmx]
  simp [hne]

theorem fits_to_qpixmap_2d (fl : List FitsVal) (h w : ℕ) :
    fits_to_qpixmap (some { shape := [h, w], flat := fl }) =
      match normalizeFlat (fl.map clean) with
      | some buf => .ok (h, w, buf)
      | none => .error "zero-size array to reduction operation minimum" := rfl

/-- Claim C2 (amended): when the cleaned values are not all equal, each output
pixel is the truncation toward zero of 255 * (value - min) / (max - min) — the
effect of the uint8 cast; no rounding takes place, and the scaled values
already lie in [0, 255], so the claimed clamp never alters anything — and on
the example [[0,10],[20,30]] the pipeline produces [[0,85],[170,255]]. -/
theorem C2_truncated_scale (l : List ℚ) (mn mx : ℚ)
    (hmn : listMin l = some mn) (hmx : listMax l = some mx) (hne : mx ≠ mn) :
    normalizeFlat l = some (l.map fun v => (⌊255 * (v - mn) / (mx - mn)⌋).toNat)
  ∧ fits_to_qpixmap
      (some { shape := [2, 2],
              flat := [.val 0, .val 10, .val 20, .val 30] }) =
      .ok (2, 2, [0, 85, 170, 255]) := by
  constructor
  · exact normalizeFlat_of_ne hmn hmx hne
  · rw [fits_to_qpixmap_2d]
    have hclean : List.map clean
        [FitsVal.val 0, FitsVal.val 10, FitsVal.val 20, FitsVal.val 30]
        = [0, 10, 20, 30] := rfl
    rw [hclean,
      @normalizeFlat_of_ne [0, 10, 20, 30] 0 30 (by decide) (by decide)
        (by decide)]
    norm_num
    decide

/-- Closed witness for C2_truncated_scale at the list [0, 10, 20, 30]. -/
theorem C2_witness :
    normalizeFlat [0, 10, 20, 30] =
      some (([0, 10, 20, 30] : List ℚ).map
        fun v => (⌊255 * (v - 0) / (30 - 0)⌋).toNat)
  ∧ fits_to_qpixmap
      (some { shape := [2, 2],
              flat := [.val 0, .val 10, .val 20, .val 30] }) =
      .ok (2, 2, [0, 85, 170, 255]) :=
  C2_truncated_scale [0, 10, 20, 30] 0 30 (by decide) (by decide) (by decide)

/-- Claim C2 fails as stated: on the input [[0,1],[1,2]] the code's uint8 cast
truncates the scaled value 127.5 down to 127, while the claimed rounding gives
128. -/
theorem C2_counterexample :
    fits_to_qpixmap
      (some { shape := [2, 2], flat := [.val 0, .val 1, .val 1, .val 2] }) =
      .ok (2, 2, [0, 127, 127, 255])
  ∧ specNormPixel 0 2 1 = 128 ∧ (128 : ℤ) ≠ 127 := by
  refine ⟨?_, ?_, by decide⟩
  · rw [fits_to_qpixmap_2d]
    have hclean : List.map clean
        [FitsVal.val 0, FitsVal.val 1, FitsVal.val 1, FitsVal.val 2]
        = [0, 1, 1, 2] := rfl
    rw [hclean,
      @normalizeFlat_of_ne [0, 1, 1, 2] 0 2 (by decide) (by decide)
        (by decide)]
    norm_num
    decide
  · norm_num [specNormPixel, round_eq]

/-- Claim C3 is right and the code is wrong: np.nan_to_num with default
arguments, as called by the normalizer, replaces NaN with 0 but replaces +Inf
with the largest finite double and -Inf with its negation — not with 0,
despite the call site's own comment "Replace NaNs and infs with 0" and the
spec's step 1. -/
theorem C3_nan_to_num_divergence :
    clean .nan = 0
  ∧ clean .pinf = FLOAT64_MAX
  ∧ clean .ninf = -FLOAT64_MAX
  ∧ specClean .pinf = 0
  ∧ clean .pinf ≠ specClean .pinf := by
  refine ⟨rfl, rfl, rfl, rfl, ?_⟩
  have hpos : (0 : ℚ) < FLOAT64_MAX := by norm_num [FLOAT64_MAX]
  simpa [clean, specClean] using hpos.ne'

/-- Claim C4: if every cleaned value of the (nonempty) array equals the same
constant, min equals max and the normalizer takes the zeros branch, producing
the all-zero buffer of the same size with no division performed. -/
theorem C4_constant_zeros (l : List FitsVal) (c : ℚ) (hne : l ≠ [])
    (hall : ∀ v ∈ l, clean v = c) :
    normalizeFlat (l.map clean) = some (List.replicate l.length 0) := by
  have hmapne : l.map clean ≠ [] := by simpa using hne
  have hconst : ∀ x ∈ l.map clean, x = c := by
    intro x hx
    obtain ⟨v, hv, rfl⟩ := List.mem_map.mp hx
    exact hall v hv
  have hmin : listMin (l.map clean) = some c := listMin_const hmapne hconst
  have hmax : listMax (l.map clean) = some c := listMax_const hmapne hconst
  rw [normalizeFlat_of_eq hmin hmax rfl, map_zero_eq_replicate,
    List.length_map]

/-- Closed witness for C4_constant_zeros on a constant 1 x 2 array. -/
theorem C4_witness :
    normalizeFlat ([FitsVal.val 5, FitsVal.val 5].map clean) =
      some (List.replicate 2 0) :=
  C4_constant_zeros [FitsVal.val 5, FitsVal.val 5] 5 (by decide) (by decide)

/-- Claim C5 (amended): for every nonempty 2D array the pipeline produces a
byte buffer with exactly width * height entries (row-major, stride = width,
one byte per pixel), each at most 255; the entries are natural numbers, so no
NaN or Inf can occur in the output. -/
theorem C5_buffer_bounds (a : NDArray) (h w : ℕ)
    (hs : a.shape = [h, w]) (hwf : a.flat.length = h * w) (hne : a.flat ≠ []) :
    ∃ buf, fits_to_qpixmap (some a) = .ok (h, w, buf)
      ∧ buf.length = w * h ∧ ∀ p ∈ buf, p ≤ 255 := by
  obtain ⟨sh, fl⟩ := a
  simp only at hs hwf hne
  subst hs
  have hflne : fl.map clean ≠ [] := by simpa using hne
  obtain ⟨mn, hmn⟩ := listMin_of_ne_nil hflne
  obtain ⟨mx, hmx⟩ := listMax_of_ne_nil hflne
  by_cases heq : mx = mn
  · refine ⟨(fl.map clean).map (fun _ => 0), ?_, ?_, ?_⟩
    · rw [fits_to_qpixmap_2d, normalizeFlat_of_eq hmn hmx heq]
    · simp [hwf, Nat.mul_comm]
    · intro p hp
      obtain ⟨v, hv, rfl⟩ := List.mem_map.mp hp
      norm_num
  · have hlt : mn < mx := by
      obtain ⟨x, hx⟩ := List.exists_mem_of_ne_nil _ hflne
      have h1 : mn ≤ mx := le_trans (listMin_le hmn x hx) (le_listMax hmx x hx)
      exact lt_of_le_of_ne h1 (fun hEq => heq hEq.symm)
    refine ⟨(fl.map clean).map
        (fun v => (⌊255 * (v - mn) / (mx - mn)⌋).toNat), ?_, ?_, ?_⟩
    · rw [fits_to_qpixmap_2d, normalizeFlat_of_ne hmn hmx heq]
    · simp [hwf, Nat.mul_comm]
    · intro p hp
      obtain ⟨v, hv, rfl⟩ := List.mem_map.mp hp
      exact scaled_le_255 (le_listMax hmx v hv) hlt

/-- Closed witness for C5_buffer_bounds on the 1 x 2 array [[1, 3]]. -/
theorem C5_witness :
    ∃ buf,
      fits_to_qpixmap
          (some { shape := [1, 2], flat := [FitsVal.val 1, FitsVal.val 3] }) =
        .ok (1, 2, buf)
      ∧ buf.length = 2 * 1 ∧ ∀ p ∈ buf, p ≤ 255 :=
  C5_buffer_bounds { shape := [1, 2], flat := [FitsVal.val 1, FitsVal.val 3] }
    1 2 rfl (by decide) (by decide)

/-- Claim C5 fails as stated on a zero-size 2D array: np.min raises ValueError
on the empty 2 x 0 image, so no output buffer is produced at all. -/
theorem C5_counterexample :
    fits_to_qpixmap (some { shape := [2, 0], flat := [] }) =
      .error "zero-size array to reduction operation minimum" := by
  rfl

/-- Claim C8 (amended): an absent or non-2D input is rejected with an error
(ValueError) and never normalized, and every nonempty 2D input is normalized
without any exception; only a zero-size 2D input additionally raises, from
np.min. -/
theorem C8_dimension_check (d : Option NDArray) :
    ((d = none ∨ ∀ a, d = some a → a.ndim ≠ 2) →
      ∃ e, fits_to_qpixmap d = .error e)
  ∧ (∀ a h w, d = some a → a.shape = [h, w] → a.flat ≠ [] →
      ∃ buf, fits_to_qpixmap d = .ok (h, w, buf)) := by
  constructor
  · intro hd
    cases d with
    | none => exact ⟨_, rfl⟩
    | some a =>
      rcases hd with hcontra | hnd2
      · cases hcontra
      · have hnd := hnd2 a rfl
        obtain ⟨sh, fl⟩ := a
        simp only [NDArray.ndim] at hnd
        cases sh with
        | nil => exact ⟨_, rfl⟩
        | cons x t =>
          cases t with
          | nil => exact ⟨_, rfl⟩
          | cons y t2 =>
            cases t2 with
            | nil => simp at hnd
            | cons z t3 => exact ⟨_, rfl⟩
  · intro a h w hda hs hne
    subst hda
    obtain ⟨sh, fl⟩ := a
    simp only at hs hne
    subst hs
    have hflne : fl.map clean ≠ [] := by simpa using hne
    obtain ⟨mn, hmn⟩ := listMin_of_ne_nil hflne
    obtain ⟨mx, hmx⟩ := listMax_of_ne_nil hflne
    by_cases heq : mx = mn
    · exact ⟨_, by rw [fits_to_qpixmap_2d, normalizeFlat_of_eq hmn hmx heq]⟩
    · exact ⟨_, by rw [fits_to_qpixmap_2d, normalizeFlat_of_ne hmn hmx heq]⟩

/-- Closed witness for C8_dimension_check: an absent payload is rejected and
the nonempty 1 x 1 array [[7]] is normalized without error. -/
theorem C8_witness :
    (∃ e, fits_to_qpixmap none = .error e)
  ∧ (∃ buf,
      fits_to_qpixmap (some { shape := [1, 1], flat := [FitsVal.val 7] }) =
        .ok (1, 1, buf)) :=
  ⟨(C8_dimension_check none).1 (Or.inl rfl),
   (C8_dimension_check (some { shape := [1, 1], flat := [FitsVal.val 7] })).2
     { shape := [1, 1], flat := [FitsVal.val 7] } 1 1 rfl rfl (by decide)⟩

/-- Claim C8 fails in one corner as stated: the zero-size 0 x 3 array is a
valid 2D input, yet the code raises ValueError from np.min instead of
normalizing it. -/
theorem C8_counterexample :
    (NDArray.ndim { shape := [0, 3], flat := [] }) = 2
  ∧ fits_to_qpixmap (some { shape := [0, 3], flat := [] }) =
      .error "zero-size array to reduction operation minimum" := by
  exact ⟨rfl, rfl⟩

/-- The backslash character. -/
def bsl : Char := Char.ofNat 92

/-- The opening curly brace character. -/
def lbrace : Char := Char.ofNat 123

/-- The closing curly brace character. -/
def rbrace : Char := Char.ofNat 125

/-- The newline character. -/
def nl : Char := Char.ofNat 10

/-- The horizontal tab character. -/
def tabChar : Char := Char.ofNat 9

/-- Python str.replace with a one-character pattern: every occurrence of c is
replaced by rep, left to right; the replacement text is never rescanned
within the same call. -/
def replaceChar (c : Char) (rep : List Char) : List Char → List Char
  | [] => []
  | x :: xs =>
    if x = c then rep ++ replaceChar c rep xs
    else x :: replaceChar c rep xs

/-- Embedding of MainWindow._escape_latex: ten str.replace calls applied
sequentially in the replacement dictionary's insertion order — ampersand,
percent, dollar, hash, underscore, the two braces, tilde, caret, and the
backslash last — each call scanning the whole text produced by the previous
ones. -/
def escape_latex (text : List Char) : List Char :=
  replaceChar bsl (bsl :: ("textbackslash").toList ++ [lbrace, rbrace])
    (replaceChar '^' (bsl :: ("textasciicircum").toList ++ [lbrace, rbrace])
      (replaceChar '~' (bsl :: ("textasciitilde").toList ++ [lbrace, rbrace])
        (replaceChar rbrace [bsl, rbrace]
          (replaceChar lbrace [bsl, lbrace]
            (replaceChar '_' [bsl, '_']
              (replaceChar '#' [bsl, '#']
                (replaceChar '$' [bsl, '$']
                  (replaceChar '%' [bsl, '%']
                    (replaceChar '&' [bsl, '&'] text)))))))))

/-- Claim C6 is right about the intended mapping and the code is wrong:
because the backslash replacement runs last, the backslash introduced by any
earlier escape is itself rewritten.  Escaping "&" yields "\textbackslash{}&",
with the ampersand left bare, instead of the claimed "\&"; a lone backslash,
by contrast, is escaped correctly. -/
theorem C6_escape_mangled :
    escape_latex ['&']
      = bsl :: ("textbackslash").toList ++ [lbrace, rbrace, '&']
  ∧ escape_latex ['&'] ≠ [bsl, '&']
  ∧ escape_latex [bsl] = bsl :: ("textbackslash").toList ++ [lbrace, rbrace] := by
  exact ⟨by decide, by decide, by decide⟩

/-- Embedding of GraphicsView._applyZoom: zooming in always increments the
zoom level and rescales; zooming out decrements and rescales only when the
level is above -10.  The Bool in the result records whether a rescale
happened. -/
def applyZoom (zoom : ℤ) (zoomIn : Bool) : ℤ × Bool :=
  if zoomIn then (zoom + 1, true)
  else if zoom > -10 then (zoom - 1, true)
  else (zoom, false)

/-- The zoom level reached after a sequence of zoom operations starting from
level 0 (the value set by the constructor, setPixmap and resetZoom). -/
def zoomAfter (ops : List Bool) : ℤ :=
  ops.foldl (fun z op => (applyZoom z op).1) 0

theorem zoomAfter_ge (z : ℤ) (hz : -10 ≤ z) (ops : List Bool) :
    -10 ≤ ops.foldl (fun a op => (applyZoom a op).1) z := by
  induction ops generalizing z with
  | nil => exact hz
  | cons op t ih =>
    rw [List.foldl_cons]
    apply ih
    unfold applyZoom
    cases op <;> simp
    · split <;> omega
    · omega

/-- Claim C10: starting from zoom level 0, the level never drops below -10; a
zoom-out at level -10 leaves the level unchanged and performs no rescale; and
a zoom-in always increments the level, with no upper bound. -/
theorem C10_zoom_floor :
    (∀ ops : List Bool, -10 ≤ zoomAfter ops)
  ∧ applyZoom (-10) false = (-10, false)
  ∧ (∀ z : ℤ, applyZoom z true = (z + 1, true)) := by
  refine ⟨fun ops => zoomAfter_ge 0 (by norm_num) ops, by decide, fun z => rfl⟩

/-- Python sep.join with a one-character separator, over strings as character
lists. -/
def joinSep (sep : Char) : List (List Char) → List Char
  | [] => []
  | [s] => s
  | s :: rest => s ++ sep :: joinSep sep rest

/-- Python str.split with a one-character separator: always returns one more
piece than there are separator occurrences. -/
def splitChar (c : Char) : List Char → List (List Char)
  | [] => [[]]
  | x :: xs =>
    match splitChar c xs with
    | [] => [[]]
    | r :: rs => if x = c then [] :: r :: rs else (x :: r) :: rs

/-- A sequence of lines as written by repeated f.write(line + newline): every
line is terminated by a newline character. -/
def terminateLines (lines : List (List Char)) : List Char :=
  lines.foldr (fun l acc => l ++ nl :: acc) []

/-- The cell contents of a loaded table after byte-to-string decoding and
stringification: the column names and the row-major cells, all as strings
(TableData in gui.py). -/
structure TableDataM where
  col_names : List (List Char)
  rows : List (List (List Char))
deriving DecidableEq, Repr

/-- Number of rows of the table (TableData.nrows, len(data)). -/
def TableDataM.nrows (t : TableDataM) : ℕ := t.rows.length

/-- Number of columns of the table (TableData.ncols, len(col_names)). -/
def TableDataM.ncols (t : TableDataM) : ℕ := t.col_names.length

/-- The text written by the CSV/TSV branch of MainWindow._exportTable: the
header line of column names joined by the separator, then one line per row of
the stringified cells joined by the separator, every line terminated by a
newline. -/
def renderTableSep (sep : Char) (t : TableDataM) : List Char :=
  terminateLines (joinSep sep t.col_names :: t.rows.map (joinSep sep))

/-- Re-parsing the exported text as the round-trip claim describes: split the
text into lines and each line on the separator; the final newline of the file
yields one empty trailing line, which is dropped. -/
def reParse (sep : Char) (text : List Char) : List (List (List Char)) :=
  ((splitChar nl text).dropLast).map (splitChar sep)

theorem splitChar_ne_nil (c : Char) (s : List Char) : splitChar c s ≠ [] := by
  cases s with
  | nil => simp [splitChar]
  | cons x xs =>
    unfold splitChar
    cases splitChar c xs with
    | nil => simp
    | cons r rs =>
      by_cases h : x = c <;> simp [h]

theorem splitChar_cons_sep (c : Char) (rest : List Char) :
    splitChar c (c :: rest) = [] :: splitChar c rest := by
  cases hr : splitChar c rest with
  | nil => cases splitChar_ne_nil c rest hr
  | cons r rs =>
    unfold splitChar
    rw [hr]
    simp

theorem splitChar_cons_ne {c a : Char} (hac : a ≠ c) (s : List Char)
    (r : List Char) (rs : List (List Char)) (hr : splitChar c s = r :: rs) :
    splitChar c (a :: s) = (a :: r) :: rs := by
  unfold splitChar
  rw [hr]
  simp [hac]

theorem splitChar_append {c : Char} {l rest : List Char} (h : c ∉ l) :
    splitChar c (l ++ c :: rest) = l :: splitChar c rest := by
  induction l with
  | nil =>
    rw [List.nil_append]
    exact splitChar_cons_sep c rest
  | cons a l ih =>
    have hac : a ≠ c := fun hEq => h (hEq ▸ List.mem_cons_self a l)
    have hcl : c ∉ l := fun hm => h (List.mem_cons_of_mem a hm)
    rw [List.cons_append]
    cases hr : splitChar c (l ++ c :: rest) with
    | nil => cases splitChar_ne_nil c (l ++ c :: rest) hr
    | cons r rs =>
      have hthis := ih hcl
      rw [hr] at hthis
      rw [splitChar_cons_ne hac (l ++ c :: rest) r rs hr]
      injection hthis with h1 h2
      rw [h1, h2]

theorem splitChar_no_sep {c : Char} {l : List Char} (h : c ∉ l) :
    splitChar c l = [l] := by
  induction l with
  | nil => rfl
  | cons a l ih =>
    have hac : a ≠ c := fun hEq => h (hEq ▸ List.mem_cons_self a l)
    have hcl : c ∉ l := fun hm => h (List.mem_cons_of_mem a hm)
    exact splitChar_cons_ne hac l l [] (ih hcl)

theorem splitChar_joinSep {c : Char} {ls : List (List Char)} (hne : ls ≠ [])
    (h : ∀ l ∈ ls, c ∉ l) :
    splitChar c (joinSep c ls) = ls := by
  induction ls with
  | nil => cases hne rfl
  | cons s rest ih =>
    cases rest with
    | nil => exact splitChar_no_sep (h s (List.mem_cons_self s []))
    | cons s2 rest2 =>
      rw [show joinSep c (s :: s2 :: rest2) = s ++ c :: joinSep c (s2 :: rest2)
        from rfl]
      rw [splitChar_append (h s (List.mem_cons_self s (s2 :: rest2)))]
      rw [ih (by simp) (fun l hl => h l (List.mem_cons_of_mem s hl))]

theorem splitChar_terminate {lines : List (List Char)}
    (h : ∀ l ∈ lines, nl ∉ l) :
    splitChar nl (terminateLines lines) = lines ++ [[]] := by
  induction lines with
  | nil => rfl
  | cons l rest ih =>
    rw [show terminateLines (l :: rest) = l ++ nl :: terminateLines rest
      from rfl]
    rw [splitChar_append (h l (List.mem_cons_self l rest))]
    rw [ih (fun l2 hl2 => h l2 (List.mem_cons_of_mem l hl2))]
    rfl

theorem not_mem_joinSep {c sep : Char} {ls : List (List Char)} (hcs : c ≠ sep)
    (h : ∀ l ∈ ls, c ∉ l) : c ∉ joinSep sep ls := by
  induction ls with
  | nil => simp [joinSep]
  | cons s rest ih =>
    cases rest with
    | nil => exact h s (List.mem_cons_self s [])
    | cons s2 rest2 =>
      rw [show joinSep sep (s :: s2 :: rest2)
        = s ++ sep :: joinSep sep (s2 :: rest2) from rfl]
      intro hmem
      rcases List.mem_append.mp hmem with hs | hrest
      · exact h s (List.mem_cons_self s (s2 :: rest2)) hs
      · rcases List.mem_cons.mp hrest with hEq | htail
        · exact hcs hEq
        · exact ih (fun l hl => h l (List.mem_cons_of_mem s hl)) htail

theorem map_split_join {sep : Char} {rs : List (List (List Char))}
    (hrow : ∀ r ∈ rs, r ≠ [])
    (hcell : ∀ r ∈ rs, ∀ s ∈ r, sep ∉ s) :
    rs.map (fun r => splitChar sep (joinSep sep r)) = rs := by
  induction rs with
  | nil => rfl
  | cons r rest ih =>
    rw [List.map_cons]
    rw [splitChar_joinSep (hrow r (List.mem_cons_self r rest))
      (fun s hs => hcell r (List.mem_cons_self r rest) s hs)]
    rw [ih (fun x hx => hrow x (List.mem_cons_of_mem r hx))
      (fun x hx => hcell x (List.mem_cons_of_mem r hx))]

/-- Claim C7 (amended): for every table with at least one column, all of whose
rows are nonempty and whose column names and decoded cell strings contain
neither the separator nor a newline, re-parsing the exported CSV/TSV text
yields exactly the header row of column names followed by the original cell
rows. -/
theorem C7_roundtrip (sep : Char) (t : TableDataM) (hsep : sep ≠ nl)
    (hcols : t.col_names ≠ [])
    (hnames_nl : ∀ s ∈ t.col_names, nl ∉ s)
    (hnames_sep : ∀ s ∈ t.col_names, sep ∉ s)
    (hrow : ∀ r ∈ t.rows, r ≠ [])
    (hcells_nl : ∀ r ∈ t.rows, ∀ s ∈ r, nl ∉ s)
    (hcells_sep : ∀ r ∈ t.rows, ∀ s ∈ r, sep ∉ s) :
    reParse sep (renderTableSep sep t) = t.col_names :: t.rows := by
  have hlines : ∀ l ∈ joinSep sep t.col_names :: t.rows.map (joinSep sep),
      nl ∉ l := by
    intro l hl
    rcases List.mem_cons.mp hl with rfl | hl2
    · exact not_mem_joinSep (Ne.symm hsep) hnames_nl
    · obtain ⟨r, hr, rfl⟩ := List.mem_map.mp hl2
      exact not_mem_joinSep (Ne.symm hsep) (fun s hs => hcells_nl r hr s hs)
  unfold reParse renderTableSep
  rw [splitChar_terminate hlines, List.dropLast_concat, List.map_cons]
  rw [splitChar_joinSep hcols hnames_sep]
  rw [List.map_map]
  rw [show ((splitChar sep ∘ joinSep sep)) = fun r => splitChar sep (joinSep sep r)
    from rfl]
  rw [map_split_join hrow hcells_sep]

/-- Closed witness for C7_roundtrip: a two-column table with one row
round-trips through CSV export. -/
theorem C7_witness :
    reParse ',' (renderTableSep ','
      { col_names := [['x'], ['y']], rows := [[['1'], ['2']]] }) =
      [['x'], ['y']] :: [[['1'], ['2']]] :=
  C7_roundtrip ',' { col_names := [['x'], ['y']], rows := [[['1'], ['2']]] }
    (by decide) (by decide) (by decide) (by decide) (by decide) (by decide)
    (by decide)

/-- Claim C7 fails as stated: the export performs no quoting or escaping, so a
cell whose decoded value contains the separator — here the single cell "a,b"
of a one-column table — re-parses as two cells instead of one. -/
theorem C7_counterexample :
    reParse ',' (renderTableSep ','
      { col_names := [['x']], rows := [[['a', ',', 'b']]] }) ≠
      [['x']] :: [[['a', ',', 'b']]] := by decide

/-- Python substring containment (the `in` operator) over character lists. -/
def containsSub (hay pat : List Char) : Bool :=
  match hay with
  | [] => pat.isEmpty
  | _ :: t => pat.isPrefixOf hay || containsSub t pat

/-- The extension check of MainWindow._exportImage: the text after the last
dot of the file name, lowercased. -/
def extOf (s : List Char) : List Char :=
  (((splitChar '.' s).getLast?).getD []).map Char.toLower

/-- The set of image extensions accepted by MainWindow._exportImage. -/
def validImageExt (ext : List Char) : Bool :=
  ext == ("png").toList || ext == ("jpg").toList || ext == ("jpeg").toList
    || ext == ("bmp").toList || ext == ("tiff").toList || ext == ("tif").toList

/-- The three table export formats of MainWindow._exportTable. -/
inductive TableFormat where
  | csv
  | tsv
  | tex
deriving DecidableEq, Repr

/-- The format decision of MainWindow._exportTable from the selected dialog
filter and the chosen file name: TSV when the filter mentions "TSV" or the
name ends in ".tsv"; LaTeX when the filter mentions "LaTeX" or the name ends
in ".tex"; CSV otherwise. -/
def decideFormat (selectedFilter fileName : List Char) : TableFormat :=
  if containsSub selectedFilter ("TSV").toList
      || ((".tsv").toList).isSuffixOf fileName then .tsv
  else if containsSub selectedFilter ("LaTeX").toList
      || ((".tex").toList).isSuffixOf fileName then .tex
  else .csv

/-- Python sep.join with a multi-character separator. -/
def joinList (sep : List Char) : List (List Char) → List Char
  | [] => []
  | [s] => s
  | s :: rest => s ++ sep ++ joinList sep rest

/-- The text "\begin{tabular}{l | l | ... | l}" plus newline written first by
the LaTeX branch, with one l per column. -/
def texTabularBegin (ncols : ℕ) : List Char :=
  bsl :: ("begin").toList ++ [lbrace] ++ ("tabular").toList ++ [rbrace, lbrace]
    ++ joinList (" | ").toList (List.replicate ncols ['l']) ++ [rbrace, nl]

/-- The text "\hline" plus newline. -/
def texHline : List Char := bsl :: ("hline").toList ++ [nl]

/-- The row terminator " \\" plus newline of the LaTeX branch. -/
def texRowEnd : List Char := [' ', bsl, bsl, nl]

/-- The text "\end{tabular}" plus newline closing the LaTeX table. -/
def texTabularEnd : List Char :=
  bsl :: ("end").toList ++ [lbrace] ++ ("tabular").toList ++ [rbrace, nl]

/-- The LaTeX text written by the tex branch of MainWindow._exportTable: the
tabular preamble, a rule, the escaped header, a rule, the escaped rows, and a
final rule before the closing line. -/
def renderTableTex (t : TableDataM) : List Char :=
  texTabularBegin t.ncols
    ++ texHline
    ++ joinList (" & ").toList (t.col_names.map escape_latex) ++ texRowEnd
    ++ texHline
    ++ (t.rows.foldr (fun r acc =>
          joinList (" & ").toList (r.map escape_latex) ++ texRowEnd ++ acc) [])
    ++ texHline ++ texTabularEnd

/-- The file content written by MainWindow._exportTable for each format:
comma-separated, tab-separated, or LaTeX tabular. -/
def renderTable : TableFormat → TableDataM → List Char
  | .csv, t => renderTableSep ',' t
  | .tsv, t => renderTableSep tabChar t
  | .tex, t => renderTableTex t

/-- A file produced by an export: an image encoded by the GUI toolkit (its
bytes are the toolkit's concern) or a text file with explicit content. -/
inductive WrittenFile where
  | image
  | text (content : List Char)
deriving DecidableEq, Repr

/-- The outcome of an export run: the returned Bool, whether an error dialog
(critical or warning) was shown, and the file written, if any. -/
structure ExportResult where
  success : Bool
  errorShown : Bool
  written : Option WrittenFile
deriving DecidableEq, Repr

/-- A pixmap as far as the export path inspects it: only its isNull flag. -/
structure PixmapM where
  isNull : Bool
deriving DecidableEq, Repr

/-- The parts of a View the export paths consult: the pixmap of its graphics
view and the table data of its current HDU, when present. -/
structure ViewM where
  pixmap : Option PixmapM
  table : Option TableDataM
deriving DecidableEq, Repr

/-- The dialog and filesystem outcomes an export run would encounter, passed
explicitly: the file names returned by the save dialogs (empty when the
dialog is cancelled), the selected table filter, whether the pixmap save
succeeds, and whether opening the table file succeeds. -/
structure ExportEnv where
  imageFileName : List Char
  tableFileName : List Char
  tableFilter : List Char
  imageSaveOk : Bool
  fileOpenOk : Bool
deriving DecidableEq, Repr

/-- Embedding of MainWindow._exportImage: warn when no view or no valid
pixmap is active; return False silently on a cancelled dialog; warn on an
unsupported extension; save otherwise, reporting failure with an error
dialog. -/
def exportImage (view : Option ViewM) (env : ExportEnv) : ExportResult :=
  match view with
  | none => { success := false, errorShown := true, written := none }
  | some v =>
    match v.pixmap with
    | none => { success := false, errorShown := true, written := none }
    | some p =>
      if p.isNull then { success := false, errorShown := true, written := none }
      else if env.imageFileName.isEmpty then
        { success := false, errorShown := false, written := none }
      else if validImageExt (extOf env.imageFileName) then
        if env.imageSaveOk then
          { success := true, errorShown := false, written := some .image }
        else { success := false, errorShown := true, written := none }
      else { success := false, errorShown := true, written := none }

/-- Embedding of MainWindow._exportTable: warn when no view is active or the
table is absent or has zero rows; return False silently on a cancelled
dialog; otherwise write the rendered table in the decided format, reporting
an open/write failure with an error dialog. -/
def exportTable (view : Option ViewM) (env : ExportEnv) : ExportResult :=
  match view with
  | none => { success := false, errorShown := true, written := none }
  | some v =>
    match v.table with
    | none => { success := false, errorShown := true, written := none }
    | some t =>
      if t.nrows = 0 then
        { success := false, errorShown := true, written := none }
      else if env.tableFileName.isEmpty then
        { success := false, errorShown := false, written := none }
      else if env.fileOpenOk then
        { success := true, errorShown := false,
          written := some (.text (renderTable
            (decideFormat env.tableFilter env.tableFileName) t)) }
      else { success := false, errorShown := true, written := none }

/-- Embedding of MainWindow._export: dispatch on the current HDU type; the
NONE sentinel and EMPTY show "Nothing to export here" and return False. -/
def exportHDU (hduType : HDUType) (view : Option ViewM) (env : ExportEnv) :
    ExportResult :=
  match hduType with
  | .NONE => { success := false, errorShown := true, written := none }
  | .EMPTY => { success := false, errorShown := true, written := none }
  | .IMAGE => exportImage view env
  | .TABLE => exportTable view env

/-- Claim C9: when there is nothing to export — the current HDU type is the
NONE sentinel or EMPTY, or the current table has zero rows — the export
operation shows an error dialog, returns False, and writes no output file, so
the filesystem state is unchanged. -/
theorem C9_nothing_to_export (hduType : HDUType) (view : Option ViewM)
    (env : ExportEnv)
    (h : hduType = .NONE ∨ hduType = .EMPTY ∨
      (hduType = .TABLE ∧
        ∃ v t, view = some v ∧ v.table = some t ∧ t.nrows = 0)) :
    (exportHDU hduType view env).success = false
  ∧ (exportHDU hduType view env).errorShown = true
  ∧ (exportHDU hduType view env).written = none := by
  rcases h with rfl | rfl | ⟨rfl, v, t, hv, ht, hn⟩
  · exact ⟨rfl, rfl, rfl⟩
  · exact ⟨rfl, rfl, rfl⟩
  · subst hv
    simp [exportHDU, exportTable, ht, hn]

/-- Closed witness for C9_nothing_to_export: exporting with an empty-payload
HDU selected fails with an error dialog and writes nothing. -/
theorem C9_witness :
    ((exportHDU .EMPTY none
        { imageFileName := [], tableFileName := [], tableFilter := [],
          imageSaveOk := false, fileOpenOk := false }).success = false
      ∧ (exportHDU .EMPTY none
        { imageFileName := [], tableFileName := [], tableFilter := [],
          imageSaveOk := false, fileOpenOk := false }).errorShown = true
      ∧ (exportHDU .EMPTY none
        { imageFileName := [], tableFileName := [], tableFilter := [],
          imageSaveOk := false, fileOpenOk := false }).written = none) :=
  C9_nothing_to_export .EMPTY none
    { imageFileName := [], tableFileName := [], tableFilter := [],
      imageSaveOk := false, fileOpenOk := false } (Or.inr (Or.inl rfl))
